import Mathlib

/-!
Shallow embedding of `pkg/ddrv/rate.go`, a stripped-down Discord-style rate
limiter.  Time is modelled as nanoseconds since the Unix epoch (`Int`), as in
Go's `time.Duration` arithmetic; `uint64` counters are modelled as `Nat`
together with explicit `% 2^64` where the source decrements.  The bucket
registry (a Go `map[string]*bucket` behind a mutex) is modelled as a function
`String → Option Bucket`; pointer mutation of a bucket becomes an explicit
write-back of the updated bucket into the registry at its key.  The two
`time.Sleep` calls in `Acquire` are modelled as the optional sleep durations
the call would perform, returned alongside the post-state.
-/

/-- Nanoseconds since the Unix epoch, modelling `time.Time`.
(`time.Unix(sec, nsec)` becomes `sec * 10^9 + nsec`; `t.After(u)` is `u < t`.) -/
abbrev Time := Int

/-- Nanoseconds, modelling `time.Duration`. -/
abbrev Duration := Int

/-- `time.Second` in nanoseconds. -/
def nsPerSecond : Duration := 1000000000

/-- `const ExtraDelay = 250 * time.Millisecond`. -/
def ExtraDelay : Duration := 250 * 1000000

/-- `2^64`, the modulus of Go's `uint64`. -/
def UINT64_MOD : Nat := 18446744073709551616

/-- Go `uint64` decrement (`x--`), with wraparound at zero. -/
def uint64Dec (n : Nat) : Nat := (n + (UINT64_MOD - 1)) % UINT64_MOD

/-- `type bucket struct { reset time.Time; remaining uint64 }`
(the per-bucket mutex guards concurrency only and carries no state). -/
structure Bucket where
  reset : Time
  remaining : Nat
  deriving DecidableEq, Repr

/-- `type Limiter struct { buckets map[string]*bucket; global time.Time }`
(the registry mutex carries no state).  `global = 0` models Go's zero time. -/
structure Limiter where
  buckets : String → Option Bucket
  global : Time

/-- `func NewLimiter() *Limiter`. -/
def NewLimiter : Limiter := { buckets := fun _ => none, global := 0 }

/-- Write bucket `b` into the registry at key `path` (the effect of mutating
the `*bucket` the map holds for `path`). -/
def setBucket (l : Limiter) (path : String) (b : Bucket) : Limiter :=
  { l with buckets := fun k => if k = path then some b else l.buckets k }

/-- `func (l *Limiter) getBucket(path string, store bool) *bucket`:
returns the bucket found (or created, when `store`) together with the
possibly-extended registry; `none` models the `nil` return. -/
def getBucket (l : Limiter) (path : String) (store : Bool) : Option Bucket × Limiter :=
  match l.buckets path with
  | some b => (some b, l)
  | none =>
    if store then
      let b : Bucket := { reset := 0, remaining := 1 }
      (some b, setBucket l path b)
    else (none, l)

/-- The four header values `Release` reads via `headers.Get`; the empty
string models an absent header, exactly as `http.Header.Get` reports it. -/
structure Headers where
  global : String
  remaining : String
  reset : String
  retryAfter : String

/-- Decimal digit value of a character, `none` for a non-digit. -/
def digitVal (c : Char) : Option Nat :=
  if '0' ≤ c ∧ c ≤ '9' then some (c.toNat - 48) else none

/-- Accumulate a base-10 value over characters, failing on any non-digit. -/
def parseNatAux : List Char → Nat → Option Nat
  | [], acc => some acc
  | c :: cs, acc =>
    match digitVal c with
    | some d => parseNatAux cs (acc * 10 + d)
    | none => none

/-- Parse a non-empty all-digit string as a `Nat`. -/
def parseNatDigits (cs : List Char) : Option Nat :=
  if cs.isEmpty then none else parseNatAux cs 0

/-- `strconv.ParseUint(s, 10, 64)`: decimal digits only (no sign), value
below `2^64`; malformed or out-of-range input is `none`. -/
def goParseUint (s : String) : Option Nat :=
  match parseNatDigits s.data with
  | some n => if n < UINT64_MOD then some n else none
  | none => none

/-- Magnitude-and-sign helper for `goAtoi`: bound the magnitude by the
`int64` range on the given sign and apply the sign. -/
def atoiSigned (neg : Bool) (cs : List Char) : Option Int :=
  match parseNatDigits cs with
  | some n =>
    if neg then
      if n ≤ 9223372036854775808 then some (-(n : Int)) else none
    else
      if n ≤ 9223372036854775807 then some (n : Int) else none
  | none => none

/-- `strconv.Atoi(s)` (= `ParseInt(s, 10, 0)` on 64-bit): optional sign then
decimal digits, value in the `int64` range; any error is `none`. -/
def goAtoi (s : String) : Option Int :=
  match s.data with
  | '+' :: cs => atoiSigned false cs
  | '-' :: cs => atoiSigned true cs
  | cs => atoiSigned false cs

/-- Base-10 value of a digit list (callers guarantee all digits). -/
def natOfDigits (cs : List Char) : Nat :=
  cs.foldl (fun a c => a * 10 + (c.toNat - 48)) 0

/-- Is `c` a decimal digit? -/
def isDigitChar (c : Char) : Bool := decide ('0' ≤ c ∧ c ≤ '9')

/-- Exact value of a parsed decimal float literal: the rational
`num / 10 ^ scale`.  This replaces `float64` in the embedding, recording the
literal's value exactly (binary `float64` rounding is abstracted away). -/
structure Dec where
  num : Int
  scale : Nat
  deriving DecidableEq, Repr

/-- The rational number a `Dec` denotes. -/
def Dec.toRat (q : Dec) : Rat := (q.num : Rat) / ((10 ^ q.scale : Nat) : Rat)

/-- Signed exponent suffix of a float literal: empty means exponent 0;
otherwise `e`/`E`, an optional sign and at least one digit. -/
def parseExp : List Char → Option Int
  | [] => some 0
  | e :: cs =>
    if e = 'e' ∨ e = 'E' then
      match cs with
      | '+' :: ds => (parseNatDigits ds).map (fun n => (n : Int))
      | '-' :: ds => (parseNatDigits ds).map (fun n => -(n : Int))
      | ds => (parseNatDigits ds).map (fun n => (n : Int))
    else none

/-- Value of mantissa digits `ip`.`fp` with exponent `ex`:
the rational `m * 10^ex / 10^(length fp)`, as a `Dec`. -/
def mantissaVal (ip fp : List Char) (ex : Int) : Dec :=
  let m : Nat := natOfDigits ip * 10 ^ fp.length + natOfDigits fp
  if 0 ≤ ex then
    { num := (m : Int) * 10 ^ ex.toNat, scale := fp.length }
  else
    { num := (m : Int), scale := fp.length + (-ex).toNat }

/-- Unsigned part of a decimal float literal: digits, an optional point with
further digits, an optional exponent; at least one mantissa digit. -/
def parsePosFloat (cs : List Char) : Option Dec :=
  let ip := cs.takeWhile isDigitChar
  let rest := cs.dropWhile isDigitChar
  match rest with
  | '.' :: rest2 =>
    let fp := rest2.takeWhile isDigitChar
    let rest3 := rest2.dropWhile isDigitChar
    if ip.isEmpty ∧ fp.isEmpty then none
    else (parseExp rest3).map (mantissaVal ip fp)
  | _ =>
    if ip.isEmpty then none else (parseExp rest).map (mantissaVal ip [])

/-- `strconv.ParseFloat(s, 64)` restricted to finite decimal literals, whose
values are recorded exactly (the `Inf`/`NaN`/hex-float forms and the binary
rounding of `float64` are outside the behaviours the claims mention). -/
def goParseFloat (s : String) : Option Dec :=
  match s.data with
  | '+' :: cs => parsePosFloat cs
  | '-' :: cs => (parsePosFloat cs).map (fun d => { num := -d.num, scale := d.scale })
  | cs => parsePosFloat cs

/-- Go `sec := int64(unix)`: truncation toward zero of `num / 10^scale`
(`Int.tdiv` is T-division, rounding toward zero like Go's conversion). -/
def Dec.secPart (q : Dec) : Int := Int.tdiv q.num (10 ^ q.scale)

/-- Go `nsec := int64((unix - float64(sec)) * float64(time.Second))`:
truncation toward zero of `(unix - sec) * 10^9`, computed exactly. -/
def Dec.nsecPart (q : Dec) : Int :=
  Int.tdiv ((q.num - q.secPart * (10 ^ q.scale : Nat)) * nsPerSecond) (10 ^ q.scale)

/-- Result of one `Acquire` call: the post-state and the two sleeps the call
performs (`none` when the corresponding branch does not sleep). -/
structure AcquireResult where
  limiter : Limiter
  globalSleep : Option Duration
  bucketSleep : Option Duration

/-- `func (l *Limiter) Acquire(path string)`.  `now` is the single
`time.Now()` reading taken at the top of the call; note the source never
re-reads the clock, so both checks compare against this same `now`. -/
def Acquire (l : Limiter) (path : String) (now : Time) : AcquireResult :=
  let gSleep := if now < l.global then some (l.global - now + ExtraDelay) else none
  match getBucket l path true with
  | (some b, l1) =>
    let bSleep :=
      if b.remaining = 0 ∧ now < b.reset then some (b.reset - now + ExtraDelay) else none
    let l2 :=
      if 0 < b.remaining then
        setBucket l1 path { b with remaining := uint64Dec b.remaining }
      else l1
    { limiter := l2, globalSleep := gSleep, bucketSleep := bSleep }
  | (none, l1) =>
    -- unreachable: `getBucket` with `store = true` always yields a bucket
    { limiter := l1, globalSleep := gSleep, bucketSleep := none }

/-- Variant of `Acquire` following the claim's wording for the bucket check:
after the global cool-down wait, the clock is re-read (the fresh reading
being the start time advanced by the global sleep), and the bucket-exhaustion
comparison and sleep computation use that fresh reading.  This is a
refinement target to compare against `Acquire`, not a translation of the
source. -/
def AcquireFreshNow (l : Limiter) (path : String) (now : Time) : AcquireResult :=
  let gSleep := if now < l.global then some (l.global - now + ExtraDelay) else none
  let now2 := match gSleep with | some d => now + d | none => now
  match getBucket l path true with
  | (some b, l1) =>
    let bSleep :=
      if b.remaining = 0 ∧ now2 < b.reset then some (b.reset - now2 + ExtraDelay) else none
    let l2 :=
      if 0 < b.remaining then
        setBucket l1 path { b with remaining := uint64Dec b.remaining }
      else l1
    { limiter := l2, globalSleep := gSleep, bucketSleep := bSleep }
  | (none, l1) =>
    { limiter := l1, globalSleep := gSleep, bucketSleep := none }

/-- The `switch` in `Release` (the `Retry-After` / `X-RateLimit-Reset`
branches): `none` models the early `return` on a parse failure, which in the
source happens before any state was written; otherwise the limiter (its
`global` possibly updated) and the bucket (its `reset` possibly updated) as
they stand after the switch.  `now` is the `time.Now()` read in the
`Retry-After` branch. -/
def releaseSwitch (l : Limiter) (b : Bucket) (h : Headers) (now : Time) :
    Option (Limiter × Bucket) :=
  if h.retryAfter ≠ "" then
    match goAtoi h.retryAfter with
    | none => none
    | some i =>
      let at_ := now + i * nsPerSecond
      if h.global ≠ "" then some ({ l with global := at_ }, b)
      else some (l, { b with reset := at_ })
  else if h.reset ≠ "" then
    match goParseFloat h.reset with
    | none => none
    | some unix =>
      let sec := unix.secPart
      let nsec := unix.nsecPart
      -- `time.Unix(sec, nsec).Add(ExtraDelay)` in nanoseconds
      some (l, { b with reset := sec * nsPerSecond + nsec + ExtraDelay })
  else some (l, b)

/-- The final `if remaining != ""` block of `Release`: starting from the
post-switch limiter `l1` and bucket `b1` (already written back, since the
switch mutates the bucket through its pointer), apply a parsed
`X-RateLimit-Remaining` value, or leave `remaining` alone on absence or
parse failure. -/
def releaseRemainingStep (l1 : Limiter) (path : String) (b1 : Bucket) (h : Headers) : Limiter :=
  let l2 := setBucket l1 path b1
  if h.remaining ≠ "" then
    match goParseUint h.remaining with
    | none => l2
    | some u => setBucket l2 path { b1 with remaining := u }
  else l2

/-- `func (l *Limiter) Release(path string, headers http.Header)`.  The
switch's bucket mutation is written back before the `X-RateLimit-Remaining`
step, so a parse failure there leaves the switch's update in place — exactly
the source's pointer-mutation order. -/
def Release (l : Limiter) (path : String) (h : Headers) (now : Time) : Limiter :=
  match getBucket l path false with
  | (none, _) => l
  | (some b, _) =>
    match releaseSwitch l b h now with
    | none => l
    | some (l1, b1) => releaseRemainingStep l1 path b1 h

/-- Invariant: every stored `remaining` is a representable `uint64` value. -/
def RemainingWF (l : Limiter) : Prop :=
  ∀ k b, l.buckets k = some b → b.remaining < UINT64_MOD

/-! Section: Concrete instances used by counterexamples and witnesses -/

/-- A bucket with some quota left and a zero reset. -/
def bK : Bucket := { reset := 0, remaining := 7 }

/-- An exhausted bucket whose reset lies 5 s past the epoch. -/
def bX : Bucket := { reset := 5 * nsPerSecond, remaining := 0 }

/-- A bucket with exactly one call left. -/
def bOne : Bucket := { reset := 0, remaining := 1 }

/-- A registry holding exactly the key `"k"`. -/
def regK (b : Bucket) : String → Option Bucket :=
  fun k => if k = "k" then some b else none

/-- Limiter with no global cool-down and the single bucket `bK` at `"k"`. -/
def lK : Limiter := { buckets := regK bK, global := 0 }

/-- Limiter with a global cool-down 10 s past the epoch and the exhausted
bucket `bX` at `"k"`. -/
def lG : Limiter := { buckets := regK bX, global := 10 * nsPerSecond }

/-- Limiter with the one-call bucket `bOne` at `"k"`. -/
def lOne : Limiter := { buckets := regK bOne, global := 0 }

/-- Headers with a well-formed `Retry-After` and a malformed
`X-RateLimit-Remaining`. -/
def hRetryBadRem : Headers :=
  { global := "", remaining := "abc", reset := "", retryAfter := "2" }

/-- Headers with a malformed `Retry-After` and a well-formed
`X-RateLimit-Remaining`. -/
def hBadRetry : Headers :=
  { global := "", remaining := "5", reset := "", retryAfter := "x" }

/-- Headers with `Retry-After` absent and a malformed `X-RateLimit-Reset`. -/
def hBadReset : Headers :=
  { global := "", remaining := "5", reset := "x", retryAfter := "" }

/-- Headers carrying only `X-RateLimit-Remaining: 5`. -/
def hRemFive : Headers :=
  { global := "", remaining := "5", reset := "", retryAfter := "" }

/-- Headers with `Retry-After: 2` marked global, and an `X-RateLimit-Reset`
that the `Retry-After` branch must ignore. -/
def hRetryGlobal : Headers :=
  { global := "true", remaining := "", reset := "9.5", retryAfter := "2" }

/-- Headers with a non-global `Retry-After: 2`. -/
def hRetryLocal : Headers :=
  { global := "", remaining := "", reset := "", retryAfter := "2" }

/-- Headers carrying only `X-RateLimit-Reset: 1.5`. -/
def hResetOnly : Headers :=
  { global := "", remaining := "", reset := "1.5", retryAfter := "" }

/-! Section: Helper lemmas about the registry operations -/

theorem setBucket_global_eq (l : Limiter) (path : String) (b : Bucket) :
    (setBucket l path b).global = l.global := rfl

theorem setBucket_same (l : Limiter) (path : String) (b : Bucket) :
    (setBucket l path b).buckets path = some b := by
  simp [setBucket]

theorem setBucket_other (l : Limiter) (path k : String) (b : Bucket) (hk : k ≠ path) :
    (setBucket l path b).buckets k = l.buckets k := by
  simp [setBucket, hk]

theorem getBucket_false_eq (l : Limiter) (path : String) :
    getBucket l path false = (l.buckets path, l) := by
  unfold getBucket
  cases l.buckets path <;> simp

theorem getBucket_true_found (l : Limiter) (path : String) (b : Bucket)
    (hb : l.buckets path = some b) :
    getBucket l path true = (some b, l) := by
  unfold getBucket
  rw [hb]

theorem getBucket_true_missing (l : Limiter) (path : String)
    (hb : l.buckets path = none) :
    getBucket l path true =
      (some { reset := 0, remaining := 1 },
       setBucket l path { reset := 0, remaining := 1 }) := by
  unfold getBucket
  rw [hb]
  simp

/-! Section: Helper lemmas about the `Release` branches -/

theorem releaseSwitch_retry_fail (l : Limiter) (b : Bucket) (h : Headers) (now : Time)
    (hra : h.retryAfter ≠ "") (hp : goAtoi h.retryAfter = none) :
    releaseSwitch l b h now = none := by
  simp [releaseSwitch, hra, hp]

theorem releaseSwitch_retry_global (l : Limiter) (b : Bucket) (h : Headers) (now : Time)
    (i : Int) (hra : h.retryAfter ≠ "") (hp : goAtoi h.retryAfter = some i)
    (hg : h.global ≠ "") :
    releaseSwitch l b h now = some ({ l with global := now + i * nsPerSecond }, b) := by
  simp [releaseSwitch, hra, hp, hg]

theorem releaseSwitch_retry_local (l : Limiter) (b : Bucket) (h : Headers) (now : Time)
    (i : Int) (hra : h.retryAfter ≠ "") (hp : goAtoi h.retryAfter = some i)
    (hg : h.global = "") :
    releaseSwitch l b h now = some (l, { b with reset := now + i * nsPerSecond }) := by
  simp [releaseSwitch, hra, hp, hg]

theorem releaseSwitch_reset_fail (l : Limiter) (b : Bucket) (h : Headers) (now : Time)
    (hra : h.retryAfter = "") (hrs : h.reset ≠ "") (hp : goParseFloat h.reset = none) :
    releaseSwitch l b h now = none := by
  simp [releaseSwitch, hra, hrs, hp]

theorem releaseSwitch_reset_ok (l : Limiter) (b : Bucket) (h : Headers) (now : Time)
    (q : Dec) (hra : h.retryAfter = "") (hrs : h.reset ≠ "") (hp : goParseFloat h.reset = some q) :
    releaseSwitch l b h now =
      some (l, { b with reset := q.secPart * nsPerSecond + q.nsecPart + ExtraDelay }) := by
  simp [releaseSwitch, hra, hrs, hp]

theorem releaseSwitch_no_reset (l : Limiter) (b : Bucket) (h : Headers) (now : Time)
    (hra : h.retryAfter = "") (hrs : h.reset = "") :
    releaseSwitch l b h now = some (l, b) := by
  simp [releaseSwitch, hra, hrs]

theorem releaseSwitch_bucket_remaining (l : Limiter) (b : Bucket) (h : Headers) (now : Time)
    (l1 : Limiter) (b1 : Bucket) (hsw : releaseSwitch l b h now = some (l1, b1)) :
    b1.remaining = b.remaining ∧ l1.buckets = l.buckets := by
  unfold releaseSwitch at hsw
  by_cases hra : h.retryAfter = "" <;> simp [hra] at hsw
  · by_cases hrs : h.reset = "" <;> simp [hrs] at hsw
    · exact ⟨by rw [← hsw.2], by rw [← hsw.1]⟩
    · cases hp : goParseFloat h.reset <;> rw [hp] at hsw <;> simp at hsw
      exact ⟨by rw [← hsw.2], by rw [← hsw.1]⟩
  · cases hp : goAtoi h.retryAfter <;> rw [hp] at hsw <;> simp at hsw
    by_cases hg : h.global = "" <;> simp [hg] at hsw
    · exact ⟨by rw [← hsw.2], by rw [← hsw.1]⟩
    · exact ⟨by rw [← hsw.2], by rw [← hsw.1]⟩

theorem release_noBucket (l : Limiter) (path : String) (h : Headers) (now : Time)
    (hb : l.buckets path = none) :
    Release l path h now = l := by
  unfold Release
  rw [getBucket_false_eq, hb]

theorem release_switch_none (l : Limiter) (path : String) (h : Headers) (now : Time)
    (b : Bucket) (hb : l.buckets path = some b)
    (hsw : releaseSwitch l b h now = none) :
    Release l path h now = l := by
  unfold Release
  rw [getBucket_false_eq, hb]
  simp [hsw]

theorem release_switch_some (l : Limiter) (path : String) (h : Headers) (now : Time)
    (b : Bucket) (l1 : Limiter) (b1 : Bucket) (hb : l.buckets path = some b)
    (hsw : releaseSwitch l b h now = some (l1, b1)) :
    Release l path h now = releaseRemainingStep l1 path b1 h := by
  unfold Release
  rw [getBucket_false_eq, hb]
  simp [hsw]

theorem releaseRemainingStep_absent (l1 : Limiter) (path : String) (b1 : Bucket)
    (h : Headers) (hr : h.remaining = "") :
    releaseRemainingStep l1 path b1 h = setBucket l1 path b1 := by
  simp [releaseRemainingStep, hr]

theorem releaseRemainingStep_fail (l1 : Limiter) (path : String) (b1 : Bucket)
    (h : Headers) (hr : h.remaining ≠ "") (hp : goParseUint h.remaining = none) :
    releaseRemainingStep l1 path b1 h = setBucket l1 path b1 := by
  simp [releaseRemainingStep, hr, hp]

theorem releaseRemainingStep_ok (l1 : Limiter) (path : String) (b1 : Bucket)
    (h : Headers) (u : Nat) (hr : h.remaining ≠ "") (hp : goParseUint h.remaining = some u) :
    releaseRemainingStep l1 path b1 h =
      setBucket (setBucket l1 path b1) path { b1 with remaining := u } := by
  simp [releaseRemainingStep, hr, hp]

/-! Section: Helper lemmas about `Acquire` -/

theorem acquire_found (l : Limiter) (path : String) (now : Time) (b : Bucket)
    (hb : l.buckets path = some b) :
    Acquire l path now =
      { limiter :=
          if 0 < b.remaining then
            setBucket l path { b with remaining := uint64Dec b.remaining }
          else l,
        globalSleep := if now < l.global then some (l.global - now + ExtraDelay) else none,
        bucketSleep :=
          if b.remaining = 0 ∧ now < b.reset then some (b.reset - now + ExtraDelay)
          else none } := by
  unfold Acquire
  rw [getBucket_true_found l path b hb]

theorem acquire_missing (l : Limiter) (path : String) (now : Time)
    (hb : l.buckets path = none) :
    Acquire l path now =
      { limiter :=
          setBucket (setBucket l path { reset := 0, remaining := 1 }) path
            { reset := 0, remaining := uint64Dec 1 },
        globalSleep := if now < l.global then some (l.global - now + ExtraDelay) else none,
        bucketSleep := none } := by
  unfold Acquire
  rw [getBucket_true_missing l path hb]
  simp

theorem releaseRemainingStep_global (l1 : Limiter) (path : String) (b1 : Bucket)
    (h : Headers) :
    (releaseRemainingStep l1 path b1 h).global = l1.global := by
  unfold releaseRemainingStep
  by_cases hr : h.remaining = "" <;> simp [hr, setBucket]
  cases goParseUint h.remaining <;> simp [setBucket]

theorem releaseRemainingStep_reset (l1 : Limiter) (path : String) (b1 : Bucket)
    (h : Headers) :
    ((releaseRemainingStep l1 path b1 h).buckets path).map Bucket.reset = some b1.reset := by
  unfold releaseRemainingStep
  by_cases hr : h.remaining = "" <;> simp [hr, setBucket]
  cases goParseUint h.remaining <;> simp [setBucket]

theorem releaseRemainingStep_other (l1 : Limiter) (path : String) (b1 : Bucket)
    (h : Headers) (k : String) (hk : k ≠ path) :
    (releaseRemainingStep l1 path b1 h).buckets k = l1.buckets k := by
  unfold releaseRemainingStep
  by_cases hr : h.remaining = "" <;> simp [hr, setBucket, hk]
  cases goParseUint h.remaining <;> simp [setBucket, hk]

/-! Section: Claim C1 -/

/-- C1: counterexample.  `Release` on the existing bucket `"k"` with headers
`Retry-After: 2` and `X-RateLimit-Remaining: abc`: the remaining value fails
to parse, yet the bucket's `reset` has been updated from 0 to 2 s — the
previously stored state is not left exactly as it was, so the update is
only partially applied, contrary to the claim. -/
theorem C1_counterexample :
    goParseUint hRetryBadRem.remaining = none ∧
    (lK.buckets ("k")).map Bucket.reset = some 0 ∧
    ((Release lK ("k") hRetryBadRem 0).buckets ("k")).map Bucket.reset =
      some (2 * nsPerSecond) := by decide

/-- C1 (amended): a parse failure of `Retry-After` (or, when it is absent, of
`X-RateLimit-Reset`) makes `Release` return with all limiter and bucket state
unchanged; a parse failure of `X-RateLimit-Remaining` leaves every bucket's
`remaining` unchanged, but a reset/global update already applied earlier in
the same call persists. -/
theorem C1_parse_failure_behaviour :
    (∀ l path h now, h.retryAfter ≠ "" → goAtoi h.retryAfter = none →
      Release l path h now = l) ∧
    (∀ l path h now, h.retryAfter = "" → h.reset ≠ "" → goParseFloat h.reset = none →
      Release l path h now = l) ∧
    (∀ l path h now k, h.remaining ≠ "" → goParseUint h.remaining = none →
      ((Release l path h now).buckets k).map Bucket.remaining =
        (l.buckets k).map Bucket.remaining) := by
  refine ⟨?_, ?_, ?_⟩
  · intro l path h now hra hp
    cases hb : l.buckets path with
    | none => exact release_noBucket l path h now hb
    | some b =>
      exact release_switch_none l path h now b hb
        (releaseSwitch_retry_fail l b h now hra hp)
  · intro l path h now hra hrs hp
    cases hb : l.buckets path with
    | none => exact release_noBucket l path h now hb
    | some b =>
      exact release_switch_none l path h now b hb
        (releaseSwitch_reset_fail l b h now hra hrs hp)
  · intro l path h now k hr hp
    cases hb : l.buckets path with
    | none => rw [release_noBucket l path h now hb]
    | some b =>
      cases hsw : releaseSwitch l b h now with
      | none => rw [release_switch_none l path h now b hb hsw]
      | some p =>
        obtain ⟨l1, b1⟩ := p
        obtain ⟨hrem, hbk⟩ := releaseSwitch_bucket_remaining l b h now l1 b1 hsw
        rw [release_switch_some l path h now b l1 b1 hb hsw,
          releaseRemainingStep_fail l1 path b1 h hr hp]
        by_cases hk : k = path
        · subst hk
          rw [setBucket_same, hb]
          simp [hrem]
        · rw [setBucket_other l1 path k b1 hk, hbk]

/-- C1 witness: the three parts of the amended claim at concrete inputs —
a malformed `Retry-After`, a malformed `X-RateLimit-Reset`, and a malformed
`X-RateLimit-Remaining` with a well-formed `Retry-After`. -/
theorem C1_parse_failure_witness :
    Release lK ("k") hBadRetry 0 = lK ∧
    Release lK ("k") hBadReset 0 = lK ∧
    ((Release lK ("k") hRetryBadRem 0).buckets ("k")).map Bucket.remaining =
      (lK.buckets ("k")).map Bucket.remaining := by
  refine ⟨?_, ?_, ?_⟩
  · exact C1_parse_failure_behaviour.1 lK ("k") hBadRetry 0 (by decide) (by decide)
  · exact C1_parse_failure_behaviour.2.1 lK ("k") hBadReset 0 (by decide) (by decide) (by decide)
  · exact C1_parse_failure_behaviour.2.2 lK ("k") hRetryBadRem 0 ("k") (by decide) (by decide)

/-! Section: Claim C2 -/

/-- C2: counterexample.  With the global cool-down at 10 s and the bucket
`"k"` exhausted with reset at 5 s, `Acquire` at time 0 takes the global wait
and still computes a bucket sleep of `(5 s - 0) + ExtraDelay` against the
stale start-of-call time, although the re-reading variant (which compares
against the time after the 10.25 s global wait) produces no bucket sleep:
the comparison does not use a fresh time reading. -/
theorem C2_counterexample :
    ((0 : Int) < lG.global) ∧
    (Acquire lG ("k") 0).globalSleep = some (10 * nsPerSecond + ExtraDelay) ∧
    (Acquire lG ("k") 0).bucketSleep = some (5 * nsPerSecond + ExtraDelay) ∧
    (AcquireFreshNow lG ("k") 0).bucketSleep = none := by decide

/-- C2 (amended): the single time reading taken at the start of `Acquire` is
used throughout: even for calls that take the global cool-down wait, the
bucket-exhaustion comparison and the computed sleep
`(reset - now) + ExtraDelay` use the start-of-call `now`, not a fresh
reading. -/
theorem C2_stale_now (l : Limiter) (path : String) (now : Time) (b : Bucket)
    (hb : l.buckets path = some b) (hg : now < l.global) :
    (Acquire l path now).globalSleep = some (l.global - now + ExtraDelay) ∧
    (Acquire l path now).bucketSleep =
      (if b.remaining = 0 ∧ now < b.reset then some (b.reset - now + ExtraDelay)
       else none) := by
  rw [acquire_found l path now b hb]
  simp [hg]

/-- C2 witness: the amended claim at the concrete limiter `lG`. -/
theorem C2_stale_now_witness :
    (Acquire lG ("k") 0).globalSleep = some (lG.global - 0 + ExtraDelay) ∧
    (Acquire lG ("k") 0).bucketSleep =
      (if bX.remaining = 0 ∧ (0 : Int) < bX.reset then some (bX.reset - 0 + ExtraDelay)
       else none) :=
  C2_stale_now lG ("k") 0 bX (by decide) (by decide)

/-! Section: Claim C3 -/

theorem releaseSwitch_ignores_reset (l : Limiter) (b : Bucket) (h : Headers) (now : Time)
    (r : String) (hra : h.retryAfter ≠ "") :
    releaseSwitch l b { h with reset := r } now = releaseSwitch l b h now := by
  unfold releaseSwitch
  simp [hra]

theorem releaseRemainingStep_reset_irrel (l1 : Limiter) (path : String) (b1 : Bucket)
    (h : Headers) (r : String) :
    releaseRemainingStep l1 path b1 { h with reset := r } =
      releaseRemainingStep l1 path b1 h := rfl

theorem release_ignores_reset (l : Limiter) (path : String) (h : Headers) (now : Time)
    (r : String) (hra : h.retryAfter ≠ "") :
    Release l path { h with reset := r } now = Release l path h now := by
  unfold Release
  rw [getBucket_false_eq]
  cases hb : l.buckets path with
  | none => rfl
  | some b =>
    simp only [releaseSwitch_ignores_reset l b h now r hra,
      releaseRemainingStep_reset_irrel]

/-- C3: on an existing bucket, when `Retry-After` is present and parses as
`n`, the instant `at = now + n` seconds is computed; with a non-empty
`X-RateLimit-Global` the limiter's global cool-down becomes `at` while the
bucket's `reset` is unchanged; otherwise the bucket's `reset` becomes `at`
while the global cool-down is unchanged; in both cases the
`X-RateLimit-Reset` header value is ignored (replacing it changes nothing). -/
theorem C3_retryAfter_precedence (l : Limiter) (path : String) (h : Headers) (now : Time)
    (b : Bucket) (n : Int) (hb : l.buckets path = some b)
    (hra : h.retryAfter ≠ "") (hp : goAtoi h.retryAfter = some n) :
    (h.global ≠ "" →
      (Release l path h now).global = now + n * nsPerSecond ∧
      ((Release l path h now).buckets path).map Bucket.reset = some b.reset) ∧
    (h.global = "" →
      ((Release l path h now).buckets path).map Bucket.reset =
        some (now + n * nsPerSecond) ∧
      (Release l path h now).global = l.global) ∧
    (∀ r, Release l path h now = Release l path { h with reset := r } now) := by
  refine ⟨?_, ?_, ?_⟩
  · intro hg
    rw [release_switch_some l path h now b _ b hb
      (releaseSwitch_retry_global l b h now n hra hp hg)]
    exact ⟨releaseRemainingStep_global _ path b h,
      releaseRemainingStep_reset _ path b h⟩
  · intro hg
    rw [release_switch_some l path h now b l _ hb
      (releaseSwitch_retry_local l b h now n hra hp hg)]
    exact ⟨releaseRemainingStep_reset l path _ h,
      releaseRemainingStep_global l path _ h⟩
  · intro r
    exact (release_ignores_reset l path h now r hra).symm

/-- C3 witness: the global branch at `Retry-After: 2` with
`X-RateLimit-Global: true` (its `X-RateLimit-Reset: 9.5` being ignored), and
the non-global branch at `Retry-After: 2`. -/
theorem C3_retryAfter_witness :
    ((Release lK ("k") hRetryGlobal 0).global = 0 + 2 * nsPerSecond ∧
      ((Release lK ("k") hRetryGlobal 0).buckets ("k")).map Bucket.reset = some bK.reset) ∧
    Release lK ("k") hRetryGlobal 0 = Release lK ("k") { hRetryGlobal with reset := "" } 0 ∧
    (((Release lK ("k") hRetryLocal 0).buckets ("k")).map Bucket.reset =
        some (0 + 2 * nsPerSecond) ∧
      (Release lK ("k") hRetryLocal 0).global = lK.global) := by
  refine ⟨?_, ?_, ?_⟩
  · exact (C3_retryAfter_precedence lK ("k") hRetryGlobal 0 bK 2 (by decide) (by decide)
      (by decide)).1 (by decide)
  · exact (C3_retryAfter_precedence lK ("k") hRetryGlobal 0 bK 2 (by decide) (by decide)
      (by decide)).2.2 ("")
  · exact (C3_retryAfter_precedence lK ("k") hRetryLocal 0 bK 2 (by decide) (by decide)
      (by decide)).2.1 (by decide)

/-! Section: Claim C4 -/

/-- C4: a malformed `Retry-After`, or an absent `Retry-After` combined with a
malformed `X-RateLimit-Reset`, suppresses a valid `X-RateLimit-Remaining`
present in the same headers: every bucket's `remaining` is left unchanged. -/
theorem C4_suppressed_remaining (l : Limiter) (path : String) (h : Headers) (now : Time)
    (u : Nat) (k : String)
    (_hr : h.remaining ≠ "") (_hu : goParseUint h.remaining = some u)
    (hbad : (h.retryAfter ≠ "" ∧ goAtoi h.retryAfter = none) ∨
            (h.retryAfter = "" ∧ h.reset ≠ "" ∧ goParseFloat h.reset = none)) :
    ((Release l path h now).buckets k).map Bucket.remaining =
      (l.buckets k).map Bucket.remaining := by
  have hrel : Release l path h now = l := by
    cases hb : l.buckets path with
    | none => exact release_noBucket l path h now hb
    | some b =>
      rcases hbad with ⟨hra, hpa⟩ | ⟨hra, hrs, hps⟩
      · exact release_switch_none l path h now b hb
          (releaseSwitch_retry_fail l b h now hra hpa)
      · exact release_switch_none l path h now b hb
          (releaseSwitch_reset_fail l b h now hra hrs hps)
  rw [hrel]

/-- C4 witness: a malformed `Retry-After: x` with a valid
`X-RateLimit-Remaining: 5` leaves the bucket's `remaining` unchanged. -/
theorem C4_suppressed_remaining_witness :
    ((Release lK ("k") hBadRetry 0).buckets ("k")).map Bucket.remaining =
      (lK.buckets ("k")).map Bucket.remaining :=
  C4_suppressed_remaining lK ("k") hBadRetry 0 5 ("k") (by decide) (by decide)
    (Or.inl ⟨by decide, by decide⟩)

/-! Section: Claim C5 -/

/-- Bridge between the source's two-step truncation (`int64(unix)` seconds,
then truncated fractional nanoseconds) and the instant the timestamp denotes:
for a non-negative timestamp the result is exactly the floor of the timestamp
in nanoseconds. -/
theorem dec_ns_floor (q : Dec) (hq : 0 ≤ q.num) :
    q.secPart * nsPerSecond + q.nsecPart = ⌊q.toRat * ((nsPerSecond : Int) : Rat)⌋ := by
  obtain ⟨n, s⟩ := q
  simp only [Dec.secPart, Dec.nsecPart, Dec.toRat] at *
  have hD0 : (0 : Int) < (10 : Int) ^ s := by positivity
  have hDn : ((10 ^ s : Nat) : Int) = (10 : Int) ^ s := by push_cast; ring
  have hN : (0 : Int) ≤ nsPerSecond := by norm_num [nsPerSecond]
  have hsec : Int.tdiv n ((10 : Int) ^ s) = n / ((10 : Int) ^ s) :=
    Int.tdiv_eq_ediv hq (le_of_lt hD0)
  have hrem : n - n / ((10 : Int) ^ s) * ((10 : Int) ^ s) = n % ((10 : Int) ^ s) := by
    rw [Int.emod_def]
    ring
  have hr0 : 0 ≤ n % ((10 : Int) ^ s) := Int.emod_nonneg n (ne_of_gt hD0)
  have hnsec :
      Int.tdiv ((n % ((10 : Int) ^ s)) * nsPerSecond) ((10 : Int) ^ s) =
        ((n % ((10 : Int) ^ s)) * nsPerSecond) / ((10 : Int) ^ s) :=
    Int.tdiv_eq_ediv (mul_nonneg hr0 hN) (le_of_lt hD0)
  have hfloor : ⌊((n : Rat) / ((10 ^ s : Nat) : Rat)) * ((nsPerSecond : Int) : Rat)⌋ =
      (n * nsPerSecond) / ((10 : Int) ^ s) := by
    have hcast : ((n : Rat) / ((10 ^ s : Nat) : Rat)) * ((nsPerSecond : Int) : Rat) =
        (((n * nsPerSecond : Int) : Rat)) / ((10 ^ s : Nat) : Rat) := by
      push_cast
      ring
    rw [hcast, Rat.floor_intCast_div_natCast (n * nsPerSecond) (10 ^ s), hDn]
  rw [hDn, hsec, hrem, hnsec, hfloor]
  have hsplit : n * nsPerSecond =
      (n % ((10 : Int) ^ s)) * nsPerSecond +
        ((n / ((10 : Int) ^ s)) * nsPerSecond) * ((10 : Int) ^ s) := by
    have hdm : ((10 : Int) ^ s) * (n / ((10 : Int) ^ s)) + n % ((10 : Int) ^ s) = n :=
      Int.ediv_add_emod n ((10 : Int) ^ s)
    calc n * nsPerSecond
        = (((10 : Int) ^ s) * (n / ((10 : Int) ^ s)) + n % ((10 : Int) ^ s)) * nsPerSecond := by
          rw [hdm]
      _ = (n % ((10 : Int) ^ s)) * nsPerSecond +
            ((n / ((10 : Int) ^ s)) * nsPerSecond) * ((10 : Int) ^ s) := by ring
  rw [hsplit, Int.add_mul_ediv_right _ _ (ne_of_gt hD0)]
  ring

/-- C5: on an existing bucket, with `Retry-After` absent and an
`X-RateLimit-Reset` that parses as the (non-negative) timestamp `q`, the
bucket's `reset` is set to the instant denoted by `q` — its value in
nanoseconds, floored to the nanosecond grid — plus `ExtraDelay`, and the
limiter's global cool-down is unchanged. -/
theorem C5_reset_header (l : Limiter) (path : String) (h : Headers) (now : Time)
    (b : Bucket) (q : Dec) (hb : l.buckets path = some b)
    (hra : h.retryAfter = "") (hrs : h.reset ≠ "")
    (hp : goParseFloat h.reset = some q) (hq : 0 ≤ q.num) :
    ((Release l path h now).buckets path).map Bucket.reset =
      some (⌊q.toRat * ((nsPerSecond : Int) : Rat)⌋ + ExtraDelay) ∧
    (Release l path h now).global = l.global := by
  rw [release_switch_some l path h now b l _ hb
    (releaseSwitch_reset_ok l b h now q hra hrs hp)]
  constructor
  · rw [releaseRemainingStep_reset l path _ h]
    simp only [Option.some.injEq]
    rw [← dec_ns_floor q hq]
  · exact releaseRemainingStep_global l path _ h

/-- C5 witness: `X-RateLimit-Reset: 1.5` parses as `15 / 10^1`; the bucket's
reset becomes its nanosecond instant plus `ExtraDelay`, global unchanged. -/
theorem C5_reset_header_witness :
    ((Release lK ("k") hResetOnly 0).buckets ("k")).map Bucket.reset =
      some (⌊(Dec.toRat { num := 15, scale := 1 }) * ((nsPerSecond : Int) : Rat)⌋ + ExtraDelay) ∧
    (Release lK ("k") hResetOnly 0).global = lK.global :=
  C5_reset_header lK ("k") hResetOnly 0 bK { num := 15, scale := 1 } (by decide) (by decide)
    (by decide) (by decide) (by decide)

/-! Section: Claim C6 -/

/-- C6: starting from a bucket with `remaining = 1`, an `Acquire` on its key
drops `remaining` to 0; a `Release` with only `X-RateLimit-Remaining: 5` sets
it to 5; and the next `Acquire` on that key computes no bucket-exhaustion
sleep. -/
theorem C6_scenario (l : Limiter) (k : String) (b : Bucket) (n1 n2 n3 : Time)
    (hb : l.buckets k = some b) (h1 : b.remaining = 1) :
    (((Acquire l k n1).limiter.buckets k).map Bucket.remaining = some 0) ∧
    (((Release (Acquire l k n1).limiter k hRemFive n2).buckets k).map
        Bucket.remaining = some 5) ∧
    (Acquire (Release (Acquire l k n1).limiter k hRemFive n2) k n3).bucketSleep =
      none := by
  have hdec1 : uint64Dec 1 = 0 := by decide
  have hl1 : (Acquire l k n1).limiter.buckets k =
      some { reset := b.reset, remaining := 0 } := by
    rw [acquire_found l k n1 b hb, h1]
    simp [setBucket_same, hdec1]
  have hrel : (Release (Acquire l k n1).limiter k hRemFive n2).buckets k =
      some { reset := b.reset, remaining := 5 } := by
    rw [release_switch_some (Acquire l k n1).limiter k hRemFive n2 _
      (Acquire l k n1).limiter _ hl1
      (releaseSwitch_no_reset (Acquire l k n1).limiter _ hRemFive n2 rfl rfl),
      releaseRemainingStep_ok (Acquire l k n1).limiter k _ hRemFive 5
        (by decide) (by decide)]
    rw [setBucket_same]
  refine ⟨by rw [hl1]; rfl, by rw [hrel]; rfl, ?_⟩
  rw [acquire_found (Release (Acquire l k n1).limiter k hRemFive n2) k n3
    { reset := b.reset, remaining := 5 } hrel]
  simp

/-- C6 witness: the scenario run on the concrete limiter `lOne`. -/
theorem C6_scenario_witness :
    (((Acquire lOne ("k") 0).limiter.buckets ("k")).map Bucket.remaining = some 0) ∧
    (((Release (Acquire lOne ("k") 0).limiter ("k") hRemFive 0).buckets ("k")).map
        Bucket.remaining = some 5) ∧
    (Acquire (Release (Acquire lOne ("k") 0).limiter ("k") hRemFive 0) ("k") 0).bucketSleep =
      none :=
  C6_scenario lOne ("k") bOne 0 0 0 (by decide) (by decide)

/-! Section: Claim C7 -/

/-- C7: `Release` on a key with no bucket is a no-op for every headers value,
and `Release` never inserts a new bucket into the registry: any key without a
bucket before the call still has none after it. -/
theorem C7_release_unknown (l : Limiter) (path : String) (h : Headers) (now : Time) :
    (l.buckets path = none → Release l path h now = l) ∧
    (∀ k, l.buckets k = none → (Release l path h now).buckets k = none) := by
  constructor
  · intro hb
    exact release_noBucket l path h now hb
  · intro k hk
    cases hb : l.buckets path with
    | none => rw [release_noBucket l path h now hb, hk]
    | some b =>
      cases hsw : releaseSwitch l b h now with
      | none => rw [release_switch_none l path h now b hb hsw, hk]
      | some p =>
        obtain ⟨l1, b1⟩ := p
        have hkp : k ≠ path := by
          intro he
          rw [he, hb] at hk
          exact Option.noConfusion hk
        obtain ⟨-, hbk⟩ := releaseSwitch_bucket_remaining l b h now l1 b1 hsw
        rw [release_switch_some l path h now b l1 b1 hb hsw,
          releaseRemainingStep_other l1 path b1 h k hkp, hbk, hk]

/-- C7 witness: a `Release` on the empty limiter is a no-op, and a `Release`
on `lK` creates no bucket for the unseen key `"q"`. -/
theorem C7_release_unknown_witness :
    Release NewLimiter ("k") hRemFive 0 = NewLimiter ∧
    (Release lK ("k") hRemFive 0).buckets ("q") = none := by
  constructor
  · exact (C7_release_unknown NewLimiter ("k") hRemFive 0).1 (by decide)
  · exact (C7_release_unknown lK ("k") hRemFive 0).2 ("q") (by decide)

/-! Section: Claim C8 -/

/-- C8: the first `Acquire` on an unseen key creates its bucket with
`remaining = 1` (and zero reset), computes no bucket-exhaustion sleep, and
blocks only if the global cool-down is active: its global sleep is taken
exactly when `now < global`. -/
theorem C8_first_acquire (l : Limiter) (path : String) (now : Time)
    (hb : l.buckets path = none) :
    (getBucket l path true).1 = some { reset := 0, remaining := 1 } ∧
    (Acquire l path now).bucketSleep = none ∧
    ((Acquire l path now).globalSleep ≠ none ↔ now < l.global) := by
  refine ⟨by rw [getBucket_true_missing l path hb], ?_, ?_⟩
  · rw [acquire_missing l path now hb]
  · rw [acquire_missing l path now hb]
    by_cases hg : now < l.global <;> simp [hg]

/-- C8 witness: the first `Acquire` on the empty limiter for key `"k"`. -/
theorem C8_first_acquire_witness :
    (getBucket NewLimiter ("k") true).1 = some { reset := 0, remaining := 1 } ∧
    (Acquire NewLimiter ("k") 0).bucketSleep = none ∧
    ((Acquire NewLimiter ("k") 0).globalSleep ≠ none ↔ (0 : Int) < NewLimiter.global) :=
  C8_first_acquire NewLimiter ("k") 0 (by decide)

/-! Section: Claim C9 -/

theorem goParseUint_lt (s : String) (u : Nat) (hp : goParseUint s = some u) :
    u < UINT64_MOD := by
  unfold goParseUint at hp
  cases hq : parseNatDigits s.data with
  | none => rw [hq] at hp; exact Option.noConfusion hp
  | some n =>
    rw [hq] at hp
    simp only [] at hp
    by_cases hlt : n < UINT64_MOD
    · rw [if_pos hlt] at hp; cases hp; exact hlt
    · rw [if_neg hlt] at hp; exact Option.noConfusion hp

theorem uint64Dec_lt (n : Nat) : uint64Dec n < UINT64_MOD := by
  unfold uint64Dec UINT64_MOD
  omega

theorem uint64Dec_eq (n : Nat) (h0 : 0 < n) (hlt : n < UINT64_MOD) :
    uint64Dec n = n - 1 := by
  unfold uint64Dec UINT64_MOD at *
  omega

theorem acquire_found_limiter (l : Limiter) (path : String) (now : Time) (b : Bucket)
    (hb : l.buckets path = some b) :
    (Acquire l path now).limiter =
      if 0 < b.remaining then
        setBucket l path { b with remaining := uint64Dec b.remaining }
      else l := by
  rw [acquire_found l path now b hb]

theorem acquire_missing_limiter (l : Limiter) (path : String) (now : Time)
    (hb : l.buckets path = none) :
    (Acquire l path now).limiter =
      setBucket (setBucket l path { reset := 0, remaining := 1 }) path
        { reset := 0, remaining := uint64Dec 1 } := by
  rw [acquire_missing l path now hb]

theorem releaseRemainingStep_WF (l1 : Limiter) (path : String) (b1 : Bucket) (h : Headers)
    (hwf1 : RemainingWF l1) (hb1 : b1.remaining < UINT64_MOD) :
    RemainingWF (releaseRemainingStep l1 path b1 h) := by
  intro k bk hkb
  by_cases hk : k = path
  · subst hk
    by_cases hr : h.remaining = ""
    · rw [releaseRemainingStep_absent l1 k b1 h hr, setBucket_same] at hkb
      cases hkb; exact hb1
    · cases hp : goParseUint h.remaining with
      | none =>
        rw [releaseRemainingStep_fail l1 k b1 h hr hp, setBucket_same] at hkb
        cases hkb; exact hb1
      | some u =>
        rw [releaseRemainingStep_ok l1 k b1 h u hr hp, setBucket_same] at hkb
        cases hkb
        exact goParseUint_lt h.remaining u hp
  · rw [releaseRemainingStep_other l1 path b1 h k hk] at hkb
    exact hwf1 k bk hkb

/-- C9: `remaining` is always a valid `uint64` count and never produced by
wraparound: the invariant holds of a fresh limiter and is preserved by every
`Acquire` and `Release`; `Acquire` decrements only a positive `remaining`
(and then by exactly one, with no underflow), and leaves a zero `remaining`
at zero. -/
theorem C9_remaining_unsigned (l : Limiter) (path : String) (h : Headers) (now : Time)
    (hwf : RemainingWF l) :
    RemainingWF NewLimiter ∧
    RemainingWF (Acquire l path now).limiter ∧
    RemainingWF (Release l path h now) ∧
    (∀ b, l.buckets path = some b → 0 < b.remaining →
      ((Acquire l path now).limiter.buckets path).map Bucket.remaining =
        some (b.remaining - 1)) ∧
    (∀ b, l.buckets path = some b → b.remaining = 0 →
      ((Acquire l path now).limiter.buckets path).map Bucket.remaining =
        some b.remaining) := by
  refine ⟨?_, ?_, ?_, ?_, ?_⟩
  · intro k b hkb
    exact Option.noConfusion hkb
  · cases hb : l.buckets path with
    | some b =>
      rw [acquire_found_limiter l path now b hb]
      by_cases h0 : 0 < b.remaining
      · rw [if_pos h0]
        intro k bk hkb
        by_cases hk : k = path
        · subst hk; rw [setBucket_same] at hkb; cases hkb
          exact uint64Dec_lt b.remaining
        · rw [setBucket_other l path k _ hk] at hkb
          exact hwf k bk hkb
      · rw [if_neg h0]; exact hwf
    | none =>
      rw [acquire_missing_limiter l path now hb]
      intro k bk hkb
      by_cases hk : k = path
      · subst hk; rw [setBucket_same] at hkb; cases hkb
        exact uint64Dec_lt 1
      · rw [setBucket_other _ path k _ hk, setBucket_other l path k _ hk] at hkb
        exact hwf k bk hkb
  · cases hb : l.buckets path with
    | none => rw [release_noBucket l path h now hb]; exact hwf
    | some b =>
      cases hsw : releaseSwitch l b h now with
      | none => rw [release_switch_none l path h now b hb hsw]; exact hwf
      | some p =>
        obtain ⟨l1, b1⟩ := p
        obtain ⟨hrem, hbk⟩ := releaseSwitch_bucket_remaining l b h now l1 b1 hsw
        rw [release_switch_some l path h now b l1 b1 hb hsw]
        refine releaseRemainingStep_WF l1 path b1 h ?_ ?_
        · intro k bk hkb
          rw [hbk] at hkb
          exact hwf k bk hkb
        · rw [hrem]
          exact hwf path b hb
  · intro b hb h0
    rw [acquire_found_limiter l path now b hb, if_pos h0, setBucket_same]
    rw [uint64Dec_eq b.remaining h0 (hwf path b hb)]
    rfl
  · intro b hb h0
    rw [acquire_found_limiter l path now b hb,
      if_neg (by rw [h0]; exact lt_irrefl 0), hb]
    rfl

/-- C9 witness: on `lK` (whose single bucket holds `remaining = 7`), an
`Acquire` leaves `remaining = 6`, and on `lG` (whose bucket holds 0) an
`Acquire` leaves it at 0. -/
theorem C9_remaining_unsigned_witness :
    ((Acquire lK ("k") 0).limiter.buckets ("k")).map Bucket.remaining =
      some (bK.remaining - 1) ∧
    ((Acquire lG ("k") 0).limiter.buckets ("k")).map Bucket.remaining =
      some bX.remaining := by
  have hwfK : RemainingWF lK := by
    intro k b hkb
    simp only [lK, regK] at hkb
    by_cases hk : k = "k"
    · rw [if_pos hk] at hkb; cases hkb; decide
    · rw [if_neg hk] at hkb; exact Option.noConfusion hkb
  have hwfG : RemainingWF lG := by
    intro k b hkb
    simp only [lG, regK] at hkb
    by_cases hk : k = "k"
    · rw [if_pos hk] at hkb; cases hkb; decide
    · rw [if_neg hk] at hkb; exact Option.noConfusion hkb
  constructor
  · exact (C9_remaining_unsigned lK ("k") hRemFive 0 hwfK).2.2.2.1 bK (by decide) (by decide)
  · exact (C9_remaining_unsigned lG ("k") hRemFive 0 hwfG).2.2.2.2 bX (by decide) (by decide)

/-! Section: Claim C10 -/

/-- C10: the frame of `Acquire`: the global cool-down is never modified, no
bucket of another key is touched, no bucket's `reset` is modified (a missing
bucket is created with zero reset), and the key's `remaining` is exactly the
created-or-found value decremented when positive. -/
theorem C10_acquire_frame (l : Limiter) (path : String) (now : Time) :
    (Acquire l path now).limiter.global = l.global ∧
    (∀ k, k ≠ path → (Acquire l path now).limiter.buckets k = l.buckets k) ∧
    ((Acquire l path now).limiter.buckets path).map Bucket.reset =
      some (match l.buckets path with | some b => b.reset | none => 0) ∧
    ((Acquire l path now).limiter.buckets path).map Bucket.remaining =
      some (match l.buckets path with
            | some b => if 0 < b.remaining then uint64Dec b.remaining else b.remaining
            | none => uint64Dec 1) := by
  cases hb : l.buckets path with
  | none =>
    have hlim := acquire_missing_limiter l path now hb
    refine ⟨?_, ?_, ?_, ?_⟩ <;> rw [hlim]
    · rfl
    · intro k hk
      rw [setBucket_other _ path k _ hk, setBucket_other l path k _ hk]
    · rw [setBucket_same]; rfl
    · rw [setBucket_same]; rfl
  | some b =>
    have hlim := acquire_found_limiter l path now b hb
    refine ⟨?_, ?_, ?_, ?_⟩ <;> rw [hlim]
    · by_cases h0 : 0 < b.remaining
      · rw [if_pos h0]; rfl
      · rw [if_neg h0]
    · intro k hk
      by_cases h0 : 0 < b.remaining
      · rw [if_pos h0, setBucket_other l path k _ hk]
      · rw [if_neg h0]
    · by_cases h0 : 0 < b.remaining
      · rw [if_pos h0, setBucket_same]; rfl
      · rw [if_neg h0, hb]; rfl
    · by_cases h0 : 0 < b.remaining
      · rw [if_pos h0, setBucket_same]; simp [h0]
      · rw [if_neg h0, hb]; simp [h0]

/-- C10 witness: the frame at the concrete limiter `lK`, key `"k"` and the
unrelated key `"q"`. -/
theorem C10_acquire_frame_witness :
    (Acquire lK ("k") 0).limiter.global = lK.global ∧
    (Acquire lK ("k") 0).limiter.buckets ("q") = lK.buckets ("q") := by
  refine ⟨(C10_acquire_frame lK ("k") 0).1, ?_⟩
  exact (C10_acquire_frame lK ("k") 0).2.1 ("q") (by decide)
